import Mathlib

/-!
Shallow embedding of the `rust_webapp` repository: the HTTP request parser
(`src/http/src/httprequest.rs`), the router (`src/httpserver/src/router.rs`)
and the handlers (`src/httpserver/src/handler.rs`), together with the
response model described in the specification.

Rust strings are embedded as Lean `String`; the string primitives the code
uses (`str::lines`, `str::split_whitespace`, `str::split`, `str::contains`,
`str::ends_with`) are given structurally recursive definitions over the
character list so that they evaluate inside the kernel.  Panics
(`unwrap` on a missing value, out-of-bounds `Vec` indexing) are embedded as
`Option.none`.
-/

namespace RustWebapp

/-! ## String primitives -/

/-- Auxiliary splitter: splits a character list at every occurrence of `c`,
keeping empty segments (the semantics of Rust `str::split` with a
single-character pattern and of Lean's `String.splitOn`). -/
def splitOnCharAux (c : Char) : List Char → List Char → List (List Char)
  | [], acc => [acc.reverse]
  | x :: xs, acc =>
    if x = c then acc.reverse :: splitOnCharAux c xs []
    else splitOnCharAux c xs (x :: acc)

/-- Rust `s.split(c)` for a single-character pattern: every occurrence of the
separator splits, empty segments are kept, and the result is never empty. -/
def splitOnChar (c : Char) (s : String) : List String :=
  (splitOnCharAux c s.data []).map String.mk

/-- Predicate `containsAux pat l`: true iff `pat` occurs as a contiguous infix of `l`. -/
def containsAux (pat : List Char) : List Char → Bool
  | [] => pat.isPrefixOf []
  | x :: xs => pat.isPrefixOf (x :: xs) || containsAux pat xs

/-- Rust `haystack.contains(pat)`: substring containment. -/
def containsSubstr (haystack pat : String) : Bool :=
  containsAux pat.data haystack.data

/-- Splits a character list at every whitespace character, keeping empty
segments; the non-empty segments are the `split_whitespace` tokens. -/
def splitWhitespaceAux : List Char → List Char → List (List Char)
  | [], acc => [acc.reverse]
  | x :: xs, acc =>
    if x.isWhitespace then acc.reverse :: splitWhitespaceAux xs []
    else splitWhitespaceAux xs (x :: acc)

/-- Rust `s.split_whitespace()`: whitespace-separated tokens, empty tokens
dropped. -/
def splitWhitespace (s : String) : List String :=
  ((splitWhitespaceAux s.data []).filter (fun t => !t.isEmpty)).map String.mk

/-- Strips one trailing carriage return, as Rust `str::lines` does on each
line split at a `\n`. -/
def stripCR (l : List Char) : List Char :=
  match l.getLast? with
  | some c => if c = '\r' then l.dropLast else l
  | none => l

/-- Rust `s.lines()`: split at every `\n`, drop the final empty segment
produced by a trailing newline (so the final line ending is optional), and
strip a trailing `\r` from each line. -/
def rustLines (s : String) : List String :=
  let parts := splitOnCharAux '\n' s.data []
  let parts :=
    match parts.getLast? with
    | some [] => parts.dropLast
    | _ => parts
  parts.map (fun l => String.mk (stripCR l))

/-- Rust `s.ends_with(suffix)`. -/
def rustEndsWith (s suffix : String) : Bool :=
  suffix.data.isSuffixOf s.data

/-! ## Request data model (`src/http/src/httprequest.rs`) -/

/-- Rust `enum Method { Get, Post, Uninitialized }`. -/
inductive Method where
  | Get
  | Post
  | Uninitialized
deriving DecidableEq, Repr

/-- Rust `impl From<&str> for Method`: `"GET"` and `"POST"` are recognized, every
other token maps to `Uninitialized`. -/
def Method.fromStr (s : String) : Method :=
  if s = "GET" then .Get
  else if s = "POST" then .Post
  else .Uninitialized

/-- Rust `enum Version { V1_1, V2_0, Uninitialized }`. -/
inductive Version where
  | V1_1
  | V2_0
  | Uninitialized
deriving DecidableEq, Repr

/-- Rust `impl From<&str> for Version`: `"HTTP/1.1"` and `"HTTP/2.0"` are
recognized, every other token maps to `Uninitialized`. -/
def Version.fromStr (s : String) : Version :=
  if s = "HTTP/1.1" then .V1_1
  else if s = "HTTP/2.0" then .V2_0
  else .Uninitialized

/-- Rust `enum Resource { Path(String) }`. -/
inductive Resource where
  | Path (s : String)
deriving DecidableEq, Repr

/-- Rust `struct HttpRequest`.  The Rust `HashMap<String, String>` of headers is
embedded as an association list with unique keys, last write wins. -/
structure HttpRequest where
  method : Method
  version : Version
  resource : Resource
  headers : List (String × String)
  msg_body : String
deriving DecidableEq, Repr

/-- Rust `HashMap::insert`: replaces any existing binding of the key. -/
def insertHeader (m : List (String × String)) (k v : String) :
    List (String × String) :=
  (m.filter (fun p => p.1 ≠ k)) ++ [(k, v)]

/-- Rust `parse_request_line`: three `.next().unwrap()` calls on the
`split_whitespace` iterator.  A line with fewer than three whitespace
separated tokens panics, embedded as `none`. -/
def parse_request_line (s : String) : Option (Method × Resource × Version) :=
  match splitWhitespace s with
  | m :: r :: v :: _ =>
    some (Method.fromStr m, Resource.Path r, Version.fromStr v)
  | _ => none

/-- Rust `parse_header_line`: `s.split(":")`, the first segment is the key and
the second segment (empty if absent) is the value; all later segments are
dropped. -/
def parse_header_line (s : String) : String × String :=
  let header_items := splitOnChar ':' s
  let key := header_items.headD ""
  let value := header_items[1]?.getD ""
  (key, value)

/-- The initial parse state of `From<String> for HttpRequest`: method
`Uninitialized`, version `V1_1`, resource `Path("")`, no headers, empty
body. -/
def initRequest : HttpRequest :=
  { method := .Uninitialized
    version := .V1_1
    resource := .Path ""
    headers := []
    msg_body := "" }

/-- One iteration of the parser loop of `From<String> for HttpRequest`:
a line containing `"HTTP"` is a request line (panicking, i.e. `none`, if it
has fewer than three tokens), else a line containing `":"` is a header
line, else an empty line is skipped, else the line overwrites the body. -/
def processLine (st : HttpRequest) (line : String) : Option HttpRequest :=
  if containsSubstr line "HTTP" then
    match parse_request_line line with
    | some (m, r, v) =>
      some { st with method := m, resource := r, version := v }
    | none => none
  else if containsSubstr line ":" then
    let (k, v) := parse_header_line line
    some { st with headers := insertHeader st.headers k v }
  else if line.length = 0 then
    some st
  else
    some { st with msg_body := line }

/-- The parser loop over all lines. -/
def processLines (st : HttpRequest) : List String → Option HttpRequest
  | [] => some st
  | l :: ls =>
    match processLine st l with
    | some st2 => processLines st2 ls
    | none => none

/-- Rust `impl From<String> for HttpRequest`: fold the line processor over
`req.lines()` starting from the declared defaults.  `none` embeds a panic
inside `parse_request_line`. -/
def httpRequestFromString (req : String) : Option HttpRequest :=
  processLines initRequest (rustLines req)

/-! ## Response model

The repository's `httpresponse.rs` is not among the available sources; the
response model below is built from the specification's §4.2 contract. -/

/-- Modelled from the spec: the `HttpResponse` aggregate of §3/§4.2 —
status-line components (numeric code and reason phrase), a header mapping,
and an optional body (`httpresponse.rs` is not among the sources). -/
structure HttpResponse where
  status_code : String
  status_text : String
  headers : List (String × String)
  body : Option String
deriving DecidableEq, Repr

/-- Modelled from the spec: the fixed reason-phrase lookup — `"200"` maps to
`"OK"`, `"404"` maps to `"Not Found"`, and any unknown code falls back to
the 404 phrase. -/
def reasonPhrase (code : String) : String :=
  if code = "200" then "OK"
  else if code = "404" then "Not Found"
  else "Not Found"

/-- Modelled from the spec: the `HttpResponse::new(status_code, headers,
body)` constructor — the reason phrase comes from the fixed lookup, and the
header map defaults to a single `Content-Type: text/html` entry when no
headers were supplied. -/
def HttpResponse.new (status_code : String)
    (headers : Option (List (String × String))) (body : Option String) :
    HttpResponse :=
  { status_code := status_code
    status_text := reasonPhrase status_code
    headers := headers.getD [("Content-Type", "text/html")]
    body := body }

/-- Renders a header map, each entry as `Key: Value\r\n`. -/
def renderHeaders (hs : List (String × String)) : String :=
  hs.foldl (fun acc kv => acc ++ kv.1 ++ ": " ++ kv.2 ++ "\r\n") ""

/-- The body string used during serialization: the body, or `""` when
absent (so Content-Length is `0`). -/
def bodyString (r : HttpResponse) : String :=
  r.body.getD ""

/-- Modelled from the spec: `send` serialization of §4.2 — the exact wire
order `HTTP/1.1 <code> <reason>\r\n`, `Content-Length: <n>\r\n` with `n`
the byte length of the body, the header entries (`Content-Type` defaulting
to `text/html`), a blank line, then the body.  The version line always
states `HTTP/1.1`. -/
def serializeResponse (r : HttpResponse) : String :=
  "HTTP/1.1 " ++
    (r.status_code ++ " " ++ r.status_text ++ "\r\n" ++
     "Content-Length: " ++ toString (bodyString r).utf8ByteSize ++ "\r\n" ++
     renderHeaders r.headers ++ "\r\n" ++ bodyString r)

/-! ## Handlers (`src/httpserver/src/handler.rs`)

`Handler::load_file` reads from the configured public directory; it is
embedded as an explicit environment `fs : String → Option String`
(file name to contents).  `WebServiceHandler::load_json` reads and decodes
`orders.json`; the decoded records are passed in as
`orders : List OrderStatus`.  Out-of-bounds `Vec` indexing (a Rust panic)
is embedded as `none`. -/

/-- Rust `struct OrderStatus { order_id: i32, order_date: String,
order_status: String }`. -/
structure OrderStatus where
  order_id : Int
  order_date : String
  order_status : String
deriving DecidableEq, Repr

/-- JSON string escaping as performed by `serde_json` for the characters
appearing in practice. -/
def jsonEscapeChar (c : Char) : String :=
  if c = '"' then "\\\""
  else if c = '\\' then "\\\\"
  else if c = '\n' then "\\n"
  else if c = '\r' then "\\r"
  else if c = '\t' then "\\t"
  else String.singleton c

/-- A JSON string literal. -/
def jsonString (s : String) : String :=
  "\"" ++ String.join (s.data.map jsonEscapeChar) ++ "\""

/-- Serialization `serde_json::to_string` of one `OrderStatus`, fields in declaration
order, compact output. -/
def orderToJson (o : OrderStatus) : String :=
  "\x7b\"order_id\":" ++ toString o.order_id ++
    ",\"order_date\":" ++ jsonString o.order_date ++
    ",\"order_status\":" ++ jsonString o.order_status ++ "\x7d"

/-- Serialization `serde_json::to_string` of a `Vec<OrderStatus>`: a JSON array. -/
def ordersToJson (os : List OrderStatus) : String :=
  "[" ++ String.intercalate "," (os.map orderToJson) ++ "]"

/-- The path segments a handler or the router works on:
`s.split('/').collect()`. -/
def pathSegments (s : String) : List String :=
  splitOnChar '/' s

/-- Rust `impl Handler for PageNotFoundHandler`: unconditionally a 404 with the
`404.html` contents (if any) as body. -/
def pageNotFoundHandle (fs : String → Option String) (_req : HttpRequest) :
    HttpResponse :=
  HttpResponse.new "404" none (fs "404.html")

/-- Rust `impl Handler for StaticPageHandler`: splits the resource path on `/`
and dispatches on segment 1 (`none` when that index is out of bounds, a
panic): empty segment serves `index.html`, `health` serves `health.html`,
any other segment is looked up in the public directory with the
Content-Type chosen by extension, falling back to a 404. -/
def staticPageHandle (fs : String → Option String) (req : HttpRequest) :
    Option HttpResponse :=
  match req.resource with
  | .Path s =>
    let route := pathSegments s
    match route[1]? with
    | none => none
    | some seg =>
      if seg = "" then
        some (HttpResponse.new "200" none (fs "index.html"))
      else if seg = "health" then
        some (HttpResponse.new "200" none (fs "health.html"))
      else
        match fs seg with
        | some contents =>
          let ct :=
            if rustEndsWith seg ".css" then "text/css"
            else if rustEndsWith seg ".js" then "application/javascript"
            else "text/html"
          some (HttpResponse.new "200" (some [("Content-Type", ct)])
            (some contents))
        | none => some (HttpResponse.new "404" none (fs "404.html"))

/-- Rust `impl Handler for WebServiceHandler`: matches `route[2]` (`none` when
index 2 is out of bounds, a panic) with the guard
`route.len() > 2 && route[3] == "orders"`; the guard's `route[3]` access is
itself a panic (`none`) when the route has exactly three segments.  The
matching arm serializes the loaded orders as a JSON array with status 200
and `Content-Type: application/json`; every other in-bounds path is a 404
with the `404.html` contents as body. -/
def webServiceHandle (fs : String → Option String)
    (orders : List OrderStatus) (req : HttpRequest) : Option HttpResponse :=
  match req.resource with
  | .Path s =>
    let route := pathSegments s
    match route[2]? with
    | none => none
    | some seg2 =>
      if seg2 = "shipping" then
        if route.length > 2 then
          match route[3]? with
          | none => none
          | some seg3 =>
            if seg3 = "orders" then
              some (HttpResponse.new "200"
                (some [("Content-Type", "application/json")])
                (some (ordersToJson orders)))
            else
              some (HttpResponse.new "404" none (fs "404.html"))
        else
          some (HttpResponse.new "404" none (fs "404.html"))
      else
        some (HttpResponse.new "404" none (fs "404.html"))

/-! ## Router (`src/httpserver/src/router.rs`) -/

/-- Rust `Router::route`: a `Get` request splits the resource path on `/` and
matches `route[1]` (`none` when that index is out of bounds, a panic):
`"api"` delegates to the web-service handler, anything else to the
static-page handler; any other method delegates to the page-not-found
handler.  The chosen handler's response is serialized and written to the
stream; the returned value is the byte string written (`none` when a
handler panicked and nothing was written). -/
def routerRoute (fs : String → Option String) (orders : List OrderStatus)
    (req : HttpRequest) : Option String :=
  match req.method with
  | .Get =>
    match req.resource with
    | .Path s =>
      let route := pathSegments s
      match route[1]? with
      | none => none
      | some seg =>
        if seg = "api" then
          (webServiceHandle fs orders req).map serializeResponse
        else
          (staticPageHandle fs req).map serializeResponse
  | _ => some (serializeResponse (pageNotFoundHandle fs req))

/-! ## Auxiliary constants for concrete evaluations -/

/-- A public directory with no files at all. -/
def emptyFs : String → Option String := fun _ => none

/-- A public directory holding only a `404.html` page. -/
def fs404 : String → Option String :=
  fun n => if n = "404.html" then some "404 page" else none

/-- A parsed `GET /api/shipping/orders` request. -/
def reqApiOrders : HttpRequest :=
  { initRequest with method := .Get, resource := .Path "/api/shipping/orders" }

/-- A parsed `GET /api` request. -/
def reqApiOnly : HttpRequest :=
  { initRequest with method := .Get, resource := .Path "/api" }

/-- A parsed `GET /x HTTP/1.1` request. -/
def reqV11 : HttpRequest :=
  { method := .Get, version := .V1_1, resource := .Path "/x",
    headers := [], msg_body := "" }

/-- A parsed `GET /x HTTP/2.0` request: identical to `reqV11` except for
the recorded version. -/
def reqV20 : HttpRequest :=
  { method := .Get, version := .V2_0, resource := .Path "/x",
    headers := [], msg_body := "" }

/-- The lines that hit the body branch of the parser loop: no `"HTTP"`
substring, no colon, not empty. -/
def isBodyLine (l : String) : Bool :=
  !containsSubstr l "HTTP" && !containsSubstr l ":" && !(l.length == 0)

/-! ## Theorems -/

/-- Claim C8: `"GET"` parses to `Method.Get`, `"POST"` to `Method.Post`, and
every other token (for example `"PUT"`) to `Method.Uninitialized`, which is
not an error. -/
theorem method_fromStr_spec :
    Method.fromStr "GET" = .Get ∧ Method.fromStr "POST" = .Post ∧
    Method.fromStr "PUT" = .Uninitialized ∧
    ∀ s, s ≠ "GET" → s ≠ "POST" → Method.fromStr s = .Uninitialized := by
  refine ⟨rfl, rfl, rfl, fun s h1 h2 => ?_⟩
  simp [Method.fromStr, h1, h2]

/-- Witness for C8 at the concrete token `"PUT"`. -/
theorem method_fromStr_spec_witness :
    ("PUT" : String) ≠ "GET" ∧ ("PUT" : String) ≠ "POST" ∧
    Method.fromStr "PUT" = .Uninitialized :=
  ⟨by decide, by decide,
    method_fromStr_spec.2.2.2 "PUT" (by decide) (by decide)⟩

/-- Claim C5: Parsing the header line `"Host: localhost:3000"` yields key
`"Host"` and value `" localhost"`: the line is split on every colon
(`["Host", " localhost", "3000"]`), the segment before the first colon is
the key, the single segment after it is the value (the port after the
second colon is silently dropped), and the value keeps its leading
whitespace. -/
theorem header_colon_truncation :
    parse_header_line "Host: localhost:3000" = ("Host", " localhost") ∧
    splitOnChar ':' "Host: localhost:3000" =
      ["Host", " localhost", "3000"] := by
  decide

/-- Claim C7: A response built with status `"200"`, no headers and body
`"hi"` serializes to exactly
`"HTTP/1.1 200 OK\r\nContent-Length: 2\r\nContent-Type: text/html\r\n\r\nhi"`;
the Content-Type defaulted to `text/html` because no headers were supplied,
and the Content-Length is the byte length of the body. -/
theorem response_roundtrip_200_hi :
    serializeResponse (HttpResponse.new "200" none (some "hi")) =
      "HTTP/1.1 200 OK\r\nContent-Length: 2\r\nContent-Type: text/html\r\n\r\nhi" ∧
    (HttpResponse.new "200" none (some "hi")).headers =
      [("Content-Type", "text/html")] ∧
    (bodyString (HttpResponse.new "200" none (some "hi"))).utf8ByteSize =
      ("hi" : String).utf8ByteSize := by
  decide

/-- Claim C2: On a line containing `"HTTP"` (the request-line trigger): with
at least three whitespace-separated tokens the request-line parse succeeds,
taking the first token as the method, the second as the resource path and
the third as the version; with fewer than three tokens the parse is the
unrecoverable `unwrap` fault, embedded as `none`. -/
theorem request_line_parse_spec (line : String)
    (hHTTP : containsSubstr line "HTTP" = true) :
    (∀ t0 t1 t2 rest, splitWhitespace line = t0 :: t1 :: t2 :: rest →
      parse_request_line line =
        some (Method.fromStr t0, Resource.Path t1, Version.fromStr t2)) ∧
    ((splitWhitespace line).length < 3 → parse_request_line line = none) := by
  constructor
  · intro t0 t1 t2 rest h
    simp [parse_request_line, h]
  · intro hlen
    unfold parse_request_line
    rcases h : splitWhitespace line with _ | ⟨a, _ | ⟨b, _ | ⟨c, rest⟩⟩⟩
    · rfl
    · rfl
    · rfl
    · rw [h] at hlen
      simp at hlen
      omega

/-- Witness for C2 at the lines `"GET /index.html HTTP/1.1"` (three tokens,
success) and `"GET HTTP/1.1"` (two tokens, fault). -/
theorem request_line_parse_spec_witness :
    containsSubstr "GET /index.html HTTP/1.1" "HTTP" = true ∧
    parse_request_line "GET /index.html HTTP/1.1" =
      some (Method.fromStr "GET", Resource.Path "/index.html",
        Version.fromStr "HTTP/1.1") ∧
    containsSubstr "GET HTTP/1.1" "HTTP" = true ∧
    parse_request_line "GET HTTP/1.1" = none :=
  ⟨by decide,
   (request_line_parse_spec "GET /index.html HTTP/1.1" (by decide)).1
     "GET" "/index.html" "HTTP/1.1" [] (by decide),
   by decide,
   (request_line_parse_spec "GET HTTP/1.1" (by decide)).2 (by decide)⟩

/-- A line without the `"HTTP"` substring never faults and leaves the
method, version and resource of the parse state unchanged. -/
theorem processLine_no_http (st : HttpRequest) (line : String)
    (h : containsSubstr line "HTTP" = false) :
    ∃ st', processLine st line = some st' ∧
      st'.method = st.method ∧ st'.version = st.version ∧
      st'.resource = st.resource := by
  unfold processLine
  simp only [h, Bool.false_eq_true, if_false]
  split
  · exact ⟨_, rfl, rfl, rfl, rfl⟩
  · split
    · exact ⟨st, rfl, rfl, rfl, rfl⟩
    · exact ⟨_, rfl, rfl, rfl, rfl⟩

/-- Folding the parser loop over lines none of which contains `"HTTP"`
never faults and leaves the method, version and resource unchanged. -/
theorem processLines_no_http (ls : List String) :
    ∀ st : HttpRequest, (∀ l ∈ ls, containsSubstr l "HTTP" = false) →
      ∃ st', processLines st ls = some st' ∧
        st'.method = st.method ∧ st'.version = st.version ∧
        st'.resource = st.resource := by
  induction ls with
  | nil => exact fun st _ => ⟨st, rfl, rfl, rfl, rfl⟩
  | cons l ls ih =>
    intro st h
    obtain ⟨st2, h2, hm2, hv2, hr2⟩ :=
      processLine_no_http st l (h l (List.mem_cons_self _ _))
    obtain ⟨st', h', hm', hv', hr'⟩ :=
      ih st2 (fun x hx => h x (List.mem_cons_of_mem _ hx))
    refine ⟨st', ?_, hm'.trans hm2, hv'.trans hv2, hr'.trans hr2⟩
    unfold processLines
    rw [h2]
    exact h'

/-- The parser loop is the identity on a list of empty lines. -/
theorem processLines_all_empty (ls : List String) :
    ∀ st : HttpRequest, (∀ l ∈ ls, l = "") → processLines st ls = some st := by
  induction ls with
  | nil => exact fun st _ => rfl
  | cons l ls ih =>
    intro st h
    have hl : l = "" := h l (List.mem_cons_self _ _)
    subst hl
    have hempty : processLine st "" = some st := by
      unfold processLine
      have h1 : containsSubstr "" "HTTP" = false := by decide
      have h2 : containsSubstr "" ":" = false := by decide
      simp [h1, h2]
    unfold processLines
    rw [hempty]
    exact ih st (fun x hx => h x (List.mem_cons_of_mem _ hx))

/-- Claim C1: For every input none of whose lines contains `"HTTP"`, the
`From<String>` parse never faults and yields the declared defaults: method
`Uninitialized`, version `V1_1` (not `Uninitialized` — asymmetric with
`Method`), resource `Path("")`; and when the input also has no header or
body lines (every line is empty), the header map and the body are empty as
well. -/
theorem parse_defaults_without_request_line (s : String)
    (h : ∀ l ∈ rustLines s, containsSubstr l "HTTP" = false) :
    ∃ r, httpRequestFromString s = some r ∧
      r.method = .Uninitialized ∧ r.version = .V1_1 ∧
      r.resource = .Path "" ∧
      ((∀ l ∈ rustLines s, l = "") → r.headers = [] ∧ r.msg_body = "") := by
  obtain ⟨r, hr, hm, hv, hres⟩ := processLines_no_http (rustLines s) initRequest h
  refine ⟨r, hr, hm, hv, hres, fun hall => ?_⟩
  have hid := processLines_all_empty (rustLines s) initRequest hall
  have : r = initRequest := by
    have := hr.symm.trans hid
    exact Option.some_inj.mp this
  rw [this]
  exact ⟨rfl, rfl⟩

/-- Witness for C1 at the concrete input `"\r\n\r\n"` (two empty lines). -/
theorem parse_defaults_without_request_line_witness :
    (∀ l ∈ rustLines "\r\n\r\n", containsSubstr l "HTTP" = false) ∧
    ∃ r, httpRequestFromString "\r\n\r\n" = some r ∧
      r.method = .Uninitialized ∧ r.version = .V1_1 ∧
      r.resource = .Path "" ∧
      ((∀ l ∈ rustLines "\r\n\r\n", l = "") →
        r.headers = [] ∧ r.msg_body = "") :=
  ⟨by decide, parse_defaults_without_request_line "\r\n\r\n" (by decide)⟩

/-- One successful loop iteration sets the body to the line exactly when
the line is a body line (no `"HTTP"`, no colon, non-empty), and keeps the
previous body otherwise. -/
theorem processLine_body_eq (st st2 : HttpRequest) (l : String)
    (h : processLine st l = some st2) :
    st2.msg_body = if isBodyLine l then l else st.msg_body := by
  unfold processLine at h
  unfold isBodyLine
  by_cases h1 : containsSubstr l "HTTP" = true
  · simp only [h1, if_true, Bool.not_true, Bool.false_and] at h ⊢
    cases hp : parse_request_line l with
    | none => rw [hp] at h; cases h
    | some t =>
      rw [hp] at h
      obtain ⟨m, r, v⟩ := t
      cases h
      simp
  · replace h1 : containsSubstr l "HTTP" = false := by
      cases hb : containsSubstr l "HTTP"
      · rfl
      · exact absurd hb h1
    simp only [h1, Bool.false_eq_true, if_false, Bool.not_false,
      Bool.true_and] at h ⊢
    by_cases h2 : containsSubstr l ":" = true
    · simp only [h2, if_true, Bool.not_true, Bool.false_and] at h ⊢
      cases h
      simp
    · replace h2 : containsSubstr l ":" = false := by
        cases hb : containsSubstr l ":"
        · rfl
        · exact absurd hb h2
      simp only [h2, Bool.false_eq_true, if_false, Bool.not_false,
        Bool.true_and] at h ⊢
      by_cases h3 : l.length = 0
      · simp only [h3, if_true] at h
        cases h
        simp [h3]
      · simp only [h3, if_false] at h
        cases h
        simp [h3]

/-- Folding the parser loop: the resulting body is the last body line among
the processed lines, or the starting body when there is none. -/
theorem processLines_body (ls : List String) :
    ∀ st st' : HttpRequest, processLines st ls = some st' →
      st'.msg_body = (ls.filter isBodyLine).getLastD st.msg_body := by
  induction ls with
  | nil =>
    intro st st' h
    cases h
    rfl
  | cons l ls ih =>
    intro st st' h
    unfold processLines at h
    cases hpl : processLine st l with
    | none => rw [hpl] at h; cases h
    | some st2 =>
      rw [hpl] at h
      have ihh := ih st2 st' h
      have hb := processLine_body_eq st st2 l hpl
      by_cases hbody : isBodyLine l = true
      · have hf : List.filter isBodyLine (l :: ls) =
            l :: List.filter isBodyLine ls := by
          simp [List.filter_cons, hbody]
        rw [hf, List.getLastD_cons, ihh, hb, if_pos hbody]
      · replace hbody : isBodyLine l = false := by
          cases hbb : isBodyLine l
          · rfl
          · exact absurd hbb hbody
        have hf : List.filter isBodyLine (l :: ls) =
            List.filter isBodyLine ls := by
          simp [List.filter_cons, hbody]
        rw [hf, ihh, hb]
        simp [hbody]

/-- Claim C6: When the input has more than one non-empty line containing
neither `"HTTP"` nor a colon, each such body line overwrites the previous
one, so the parsed request's body is the last such line. -/
theorem body_last_line_wins (s : String) (r : HttpRequest)
    (h : httpRequestFromString s = some r)
    (hmany : 1 < ((rustLines s).filter isBodyLine).length) :
    ((rustLines s).filter isBodyLine).getLast? = some r.msg_body := by
  have hb := processLines_body (rustLines s) initRequest r h
  have hne : (rustLines s).filter isBodyLine ≠ [] := by
    intro hnil
    rw [hnil] at hmany
    simp at hmany
  rw [hb, List.getLastD_eq_getLast?, List.getLast?_eq_getLast _ hne]
  rfl

/-- Witness for C6 at the concrete input `"hello\nworld"` (two body
lines). -/
theorem body_last_line_wins_witness :
    httpRequestFromString "hello\nworld" =
      some { initRequest with msg_body := "world" } ∧
    1 < ((rustLines "hello\nworld").filter isBodyLine).length ∧
    ((rustLines "hello\nworld").filter isBodyLine).getLast? =
      some ({ initRequest with msg_body := "world" } : HttpRequest).msg_body :=
  ⟨by decide, by decide,
    body_last_line_wins "hello\nworld" _ (by decide) (by decide)⟩

/-- Claim C3: `Router::route` dispatch: a `Get` request whose path segment at
index 1 equals `"api"` delegates to the web-service handler, a `Get`
request with any other segment at index 1 delegates to the static-page
handler, and any other method delegates to the page-not-found handler
regardless of path; in each case the chosen handler's response is
serialized and sent to the sink. -/
theorem router_dispatch (fs : String → Option String)
    (orders : List OrderStatus) (req : HttpRequest) (s : String)
    (hres : req.resource = .Path s) :
    (req.method = .Get → (pathSegments s)[1]? = some "api" →
      routerRoute fs orders req =
        (webServiceHandle fs orders req).map serializeResponse) ∧
    (∀ seg, req.method = .Get → (pathSegments s)[1]? = some seg →
      seg ≠ "api" →
      routerRoute fs orders req =
        (staticPageHandle fs req).map serializeResponse) ∧
    (req.method ≠ .Get →
      routerRoute fs orders req =
        some (serializeResponse (pageNotFoundHandle fs req))) := by
  refine ⟨?_, ?_, ?_⟩
  · intro hm h1
    simp [routerRoute, hm, hres, h1]
  · intro seg hm h1 hne
    simp [routerRoute, hm, hres, h1, hne]
  · intro hm
    cases hme : req.method with
    | Get => exact absurd hme hm
    | Post => simp [routerRoute, hme]
    | Uninitialized => simp [routerRoute, hme]

/-- Witness for C3 at the concrete request `GET /api/shipping/orders`. -/
theorem router_dispatch_witness :
    routerRoute fs404 [] reqApiOrders =
      (webServiceHandle fs404 [] reqApiOrders).map serializeResponse :=
  (router_dispatch fs404 [] reqApiOrders "/api/shipping/orders" rfl).1
    rfl (by decide)

/-- Every serialized response literally begins with `"HTTP/1.1 "`. -/
theorem serializeResponse_states_v11 (r : HttpResponse) :
    ∃ rest, serializeResponse r = "HTTP/1.1 " ++ rest :=
  ⟨_, rfl⟩

/-- Every byte string the router writes is the serialization of some
response. -/
theorem routerRoute_output_serialized (fs : String → Option String)
    (orders : List OrderStatus) (req : HttpRequest) (out : String)
    (h : routerRoute fs orders req = some out) :
    ∃ resp, out = serializeResponse resp := by
  obtain ⟨m, v, res, hd, b⟩ := req
  cases m with
  | Get =>
    cases res with
    | Path s =>
      simp only [routerRoute] at h
      cases hg : (pathSegments s)[1]? with
      | none => rw [hg] at h; cases h
      | some seg =>
        simp only [hg] at h
        by_cases ha : seg = "api"
        · rw [if_pos ha] at h
          obtain ⟨resp, -, hout⟩ := Option.map_eq_some'.mp h
          exact ⟨resp, hout.symm⟩
        · rw [if_neg ha] at h
          obtain ⟨resp, -, hout⟩ := Option.map_eq_some'.mp h
          exact ⟨resp, hout.symm⟩
  | Post =>
    simp only [routerRoute] at h
    exact ⟨pageNotFoundHandle fs _, (Option.some_inj.mp h).symm⟩
  | Uninitialized =>
    simp only [routerRoute] at h
    exact ⟨pageNotFoundHandle fs _, (Option.some_inj.mp h).symm⟩

/-- Claim C9: Two parsed requests identical except for their recorded version
make `Router::route` write identical bytes, and every byte string the
router writes states `HTTP/1.1` in its status line: the version is recorded
but never influences routing or response serialization. -/
theorem version_noninterference (fs : String → Option String)
    (orders : List OrderStatus) (r1 r2 : HttpRequest)
    (hm : r1.method = r2.method) (hres : r1.resource = r2.resource)
    (hh : r1.headers = r2.headers) (hb : r1.msg_body = r2.msg_body) :
    routerRoute fs orders r1 = routerRoute fs orders r2 ∧
    ∀ out, routerRoute fs orders r1 = some out →
      ∃ rest, out = "HTTP/1.1 " ++ rest := by
  constructor
  · obtain ⟨m1, v1, res1, hd1, b1⟩ := r1
    obtain ⟨m2, v2, res2, hd2, b2⟩ := r2
    dsimp only at hm hres hh hb
    subst hm hres hh hb
    cases m1 with
    | Get => cases res1 with | Path s => rfl
    | Post => rfl
    | Uninitialized => rfl
  · intro out hout
    obtain ⟨resp, hre⟩ := routerRoute_output_serialized fs orders r1 out hout
    obtain ⟨rest, hsr⟩ := serializeResponse_states_v11 resp
    exact ⟨rest, by rw [hre, hsr]⟩

/-- Witness for C9 at the concrete requests `GET /x HTTP/1.1` and
`GET /x HTTP/2.0`. -/
theorem version_noninterference_witness :
    routerRoute fs404 [] reqV11 = routerRoute fs404 [] reqV20 :=
  (version_noninterference fs404 [] reqV11 reqV20 rfl rfl rfl rfl).1

/-- Splitting a character list that does not contain the separator yields a
single segment. -/
theorem splitOnCharAux_no_sep (c : Char) (l : List Char) :
    ∀ acc, c ∉ l → splitOnCharAux c l acc = [acc.reverse ++ l] := by
  induction l with
  | nil =>
    intro acc _
    simp [splitOnCharAux]
  | cons x xs ih =>
    intro acc h
    rw [List.mem_cons, not_or] at h
    obtain ⟨hx, hxs⟩ := h
    have hx' : ¬x = c := fun he => hx he.symm
    simp only [splitOnCharAux, if_neg hx']
    rw [ih (x :: acc) hxs]
    simp

/-- A path without `'/'` splits into a single segment, so index 1 is out of
bounds. -/
theorem pathSegments_no_slash (s : String) (h : '/' ∉ s.data) :
    pathSegments s = [s] := by
  unfold pathSegments splitOnChar
  rw [splitOnCharAux_no_sep '/' s.data [] h]
  simp

/-- Claim C10: A `Get` request whose resource path contains no `'/'` (for
example the default `Path("")`) makes both `Router::route`'s and
`StaticPageHandler::handle`'s indexing of the split path at position 1 go
out of bounds (a panic, embedded as `none`): no response is produced, so
routing is only defined for `Get` paths containing at least one `'/'`. -/
theorem routing_requires_slash (fs : String → Option String)
    (orders : List OrderStatus) (req : HttpRequest) (s : String)
    (hm : req.method = .Get) (hres : req.resource = .Path s)
    (hns : '/' ∉ s.data) :
    routerRoute fs orders req = none ∧ staticPageHandle fs req = none := by
  have hseg : pathSegments s = [s] := pathSegments_no_slash s hns
  constructor
  · simp [routerRoute, hm, hres, hseg]
  · simp [staticPageHandle, hres, hseg]

/-- Witness for C10 at the default resource `Path("")`. -/
theorem routing_requires_slash_witness :
    routerRoute emptyFs [] { initRequest with method := .Get } = none ∧
    staticPageHandle emptyFs { initRequest with method := .Get } = none :=
  routing_requires_slash emptyFs [] _ "" rfl rfl (by decide)

/-- Claim C4, counterexample: On the request `GET /api` — with the `404.html`
resource present — `WebServiceHandler::handle` does not respond 404: the
`route[2]` access is out of bounds (a panic, embedded as `none`). -/
theorem webservice_short_path_counterexample :
    fs404 "404.html" = some "404 page" ∧
    webServiceHandle fs404 [] reqApiOnly = none ∧
    webServiceHandle fs404 [] reqApiOnly ≠
      some (HttpResponse.new "404" none (fs404 "404.html")) := by
  decide

/-- Claim C4, amended: `WebServiceHandler::handle`: a path whose segment at
index 2 is `"shipping"` and segment at index 3 is `"orders"` gets a 200
response whose body is the loaded orders serialized as a JSON array with
Content-Type `application/json`; every other path on which the accesses
stay in bounds — segment 2 exists and is not `"shipping"`, or segments 2
and 3 both exist — gets a 404 with the `404.html` contents as body; a path
with no segment at index 2, or with segment 2 equal to `"shipping"` but no
segment at index 3, is a fatal out-of-bounds fault producing no
response. -/
theorem webservice_dispatch_amended (fs : String → Option String)
    (orders : List OrderStatus) (req : HttpRequest) (s : String)
    (hres : req.resource = .Path s) :
    ((pathSegments s)[2]? = some "shipping" →
      (pathSegments s)[3]? = some "orders" →
      webServiceHandle fs orders req =
        some (HttpResponse.new "200"
          (some [("Content-Type", "application/json")])
          (some (ordersToJson orders)))) ∧
    (∀ seg2, (pathSegments s)[2]? = some seg2 → seg2 ≠ "shipping" →
      webServiceHandle fs orders req =
        some (HttpResponse.new "404" none (fs "404.html"))) ∧
    (∀ seg3, (pathSegments s)[2]? = some "shipping" →
      (pathSegments s)[3]? = some seg3 → seg3 ≠ "orders" →
      webServiceHandle fs orders req =
        some (HttpResponse.new "404" none (fs "404.html"))) ∧
    ((pathSegments s)[2]? = none →
      webServiceHandle fs orders req = none) ∧
    ((pathSegments s)[2]? = some "shipping" →
      (pathSegments s)[3]? = none →
      webServiceHandle fs orders req = none) := by
  refine ⟨?_, ?_, ?_, ?_, ?_⟩
  · intro h2 h3
    have hlen : 2 < (pathSegments s).length := (List.getElem?_eq_some.mp h2).1
    simp [webServiceHandle, hres, h2, h3, hlen]
  · intro seg2 h2 hne
    simp [webServiceHandle, hres, h2, hne]
  · intro seg3 h2 h3 hne
    have hlen : 2 < (pathSegments s).length := (List.getElem?_eq_some.mp h2).1
    simp [webServiceHandle, hres, h2, h3, hlen, hne]
  · intro h2
    simp [webServiceHandle, hres, h2]
  · intro h2 h3
    have hlen : 2 < (pathSegments s).length := (List.getElem?_eq_some.mp h2).1
    simp [webServiceHandle, hres, h2, h3, hlen]

/-- Witness for C4 (amended) at the concrete requests
`GET /api/shipping/orders` (200 with the JSON array) and `GET /api`
(fault). -/
theorem webservice_dispatch_amended_witness :
    webServiceHandle fs404 [] reqApiOrders =
      some (HttpResponse.new "200"
        (some [("Content-Type", "application/json")])
        (some (ordersToJson []))) ∧
    webServiceHandle fs404 [] reqApiOnly = none :=
  ⟨(webservice_dispatch_amended fs404 [] reqApiOrders
      "/api/shipping/orders" rfl).1 (by decide) (by decide),
   (webservice_dispatch_amended fs404 [] reqApiOnly "/api" rfl).2.2.2.1
      (by decide)⟩

end RustWebapp
